import Mathlib

/-!
Shallow embedding of the growi-plugin-view-char-counter sources.

The repository contains three near-identical variants of one browser
script:
  * `src/unnamed/part_001` — the floating counter (a fixed-position div
    appended to `document.body`, identified by the id
    `growi-view-char-counter-floating`);
  * `src/unnamed/part_000` — the anchored counter (a span inserted into
    the system-version footer);
  * `src/client-entry.tsx` — the inline counter (a div appended as the
    last child of each content root, identified by the class
    `growi-view-char-counter`).

We embed the floating variant in full (world state: document tree,
listener registry, observer flag, cleanup registry, remembered content
roots, ambient selection) and the inline variant's attach/update/observer
path.  JavaScript strings are modelled as lists of Unicode scalar values;
`String.prototype.length` (the count of UTF-16 code units) is embedded as
`jsLength`.  DOM nodes are trees; references to attached nodes are paths
from the document root, so reference equality is path equality.  A
mutation record's added-node references are live: either the node is
still attached (referenced by its current path) or it was detached again
before the asynchronous callback ran, in which case the record still
holds the node with its frozen subtree and `instanceof Element` /
`matches` / `querySelector` keep working on it.
-/

namespace VCC

/-! ## JavaScript strings and character counting -/

/-- A JavaScript string, modelled as its sequence of Unicode scalar
values (code points). -/
abbrev JSStr := List Char

/-- Number of UTF-16 code units a single code point occupies (astral
plane code points take a surrogate pair). -/
def utf16Units (c : Char) : Nat := if c.val < 0x10000 then 1 else 2

/-- Embedding of JavaScript `s.length`: the number of UTF-16 code units
of the string. -/
def jsLength (s : JSStr) : Nat := (s.map utf16Units).sum

/-- Embedding of `const countChars = (s: string) => s.length;`
(`src/unnamed/part_001` line 103, `src/client-entry.tsx` line 46). -/
def countChars (s : JSStr) : Nat := jsLength s

/-- The code-point count of a string (what the commented-out alternative
`Array.from(s).length` in the source would compute). -/
def codePointCount (s : JSStr) : Nat := s.length

/-- Coerce a Lean string literal into the `JSStr` model. -/
def strToJS (s : String) : JSStr := s.data

/-- Embedding of JavaScript number-to-string interpolation for a
natural number. -/
def natToJS (n : Nat) : JSStr := strToJS (toString n)

/-- A sample string containing one supplementary-plane code point
(U+20BB7), which occupies two UTF-16 code units. -/
def astralSample : JSStr := [Char.ofNat 0x20BB7]

/-- Embedding of the template literal
`` `選択中: ${countChars(selected)} 文字 / ページ全体: ${countChars(fullText)} 文字` ``. -/
def selectedForm (nSel nFull : Nat) : JSStr :=
  strToJS "選択中: " ++ natToJS nSel ++ strToJS " 文字 / ページ全体: " ++ natToJS nFull
    ++ strToJS " 文字"

/-- Embedding of the template literal
`` `ページ全体: ${countChars(fullText)} 文字` ``. -/
def totalForm (nFull : Nat) : JSStr :=
  strToJS "ページ全体: " ++ natToJS nFull ++ strToJS " 文字"

/-- Embedding of `Array.prototype.join('\n')` on a list of strings
(`contentRoots.map(...).join('\n')`). -/
def joinLines : List JSStr → JSStr
  | [] => []
  | [s] => s
  | s :: t :: rest => s ++ '\n' :: joinLines (t :: rest)

/-- The rendered output as a function of the full text and the
qualifying selection string: the two-branch `if` at the end of
`updateCounter` / `update`. -/
def renderText (fullText selected : JSStr) : JSStr :=
  if 0 < countChars selected then
    selectedForm (countChars selected) (countChars fullText)
  else
    totalForm (countChars fullText)

/-! ## Selectors -/

/-- The CSS selectors the plugin uses: an attribute test
(`[data-testid="..."]`), a class selector (`.cls`), or a tag-qualified
class selector (`div.cls`). -/
inductive Selector where
  | attrTestid (v : String)
  | cls (c : String)
  | tagCls (t c : String)
deriving DecidableEq, Repr

/-- The attributes of a DOM element that the plugin's selectors and
lookups can observe. -/
structure ElemData where
  tag : String
  idAttr : Option String
  classes : List String
  testid : Option String
deriving DecidableEq, Repr

/-- Whether an element matches a single selector. -/
def matchesSel (d : ElemData) : Selector → Bool
  | .attrTestid v => d.testid == some v
  | .cls c => d.classes.contains c
  | .tagCls t c => d.tag == t && d.classes.contains c

/-- Whether an element matches a comma-separated selector list
(`Element.matches('a, b, c')`). -/
def matchesAny (d : ElemData) (sels : List Selector) : Bool :=
  sels.any (matchesSel d)

/-- The ordered content-root selector list
`['[data-testid="page-content"]', '.wiki', '.page-content', '.content-main']`. -/
def contentSelectors : List Selector :=
  [Selector.attrTestid "page-content", Selector.cls "wiki",
   Selector.cls "page-content", Selector.cls "content-main"]

/-- `COUNTER_ID` of the floating variant (`src/unnamed/part_001`). -/
def COUNTER_ID : String := "growi-view-char-counter-floating"

/-- `COUNTER_CLASS` of the inline variant (`src/client-entry.tsx`). -/
def COUNTER_CLASS : String := "growi-view-char-counter"

/-! ## DOM trees, paths and queries -/

/-- A DOM node: an element with attributes and a child list, or a text
node. -/
inductive DomNode where
  | elem (d : ElemData) (children : List DomNode)
  | text (s : JSStr)
deriving Repr

/-- A node reference: the path of child indices from the document root
to the node.  Two references denote the same node iff the paths are
equal. -/
abbrev Path := List Nat

/-- The document: its root is always an element (the `document.body`
container). -/
structure Doc where
  body : ElemData
  kids : List DomNode
deriving Repr

/-- View the document as its root node. -/
def Doc.toNode (d : Doc) : DomNode := DomNode.elem d.body d.kids

/-- Resolve a path to the node it references, if any. -/
def nodeAt : DomNode → Path → Option DomNode
  | n, [] => some n
  | .elem _ cs, i :: rest =>
    match cs.get? i with
    | some c => nodeAt c rest
    | none => none
  | .text _, _ :: _ => none

mutual
/-- The paths of all element nodes in a subtree (including the subtree
root when it is an element), in document (preorder) order. -/
def elemPaths : DomNode → List Path
  | .elem _ cs => [] :: elemPathsKids cs 0
  | .text _ => []

/-- The paths of all element nodes in a list of sibling subtrees, the
first sibling having child index `i`. -/
def elemPathsKids : List DomNode → Nat → List Path
  | [], _ => []
  | c :: cs, i => (elemPaths c).map (fun p => i :: p) ++ elemPathsKids cs (i + 1)
end

mutual
/-- Embedding of `node.textContent`: the concatenation of all text-node
data in the subtree, in document order. -/
def textContentN : DomNode → JSStr
  | .elem _ cs => textContentL cs
  | .text s => s

/-- Concatenated text content of a list of sibling subtrees. -/
def textContentL : List DomNode → JSStr
  | [] => []
  | c :: cs => textContentN c ++ textContentL cs
end

mutual
/-- Whether a subtree (including its root) contains an element matching
any of the selectors. -/
def subtreeHasMatch : DomNode → List Selector → Bool
  | .elem d cs, sels => matchesAny d sels || kidsHaveMatch cs sels
  | .text _, _ => false

/-- Whether any of the sibling subtrees contains a matching element. -/
def kidsHaveMatch : List DomNode → List Selector → Bool
  | [], _ => false
  | c :: cs, sels => subtreeHasMatch c sels || kidsHaveMatch cs sels
end

/-- The predicate `document.getElementById` tests at a path. -/
def elemIdPred (root : DomNode) (i : String) (p : Path) : Bool :=
  match nodeAt root p with
  | some (.elem d _) => d.idAttr == some i
  | _ => false

/-- Embedding of `document.getElementById(i)`: the first element in
document order whose id attribute is `i`. -/
def getElementById (d : Doc) (i : String) : Option Path :=
  (elemPaths d.toNode).find? (elemIdPred d.toNode i)

/-- The predicate a selector tests at a path. -/
def selPred (root : DomNode) (sel : Selector) (p : Path) : Bool :=
  match nodeAt root p with
  | some (.elem d _) => matchesSel d sel
  | _ => false

/-- Embedding of `document.querySelectorAll(sel)`: all matching element
paths in document order. -/
def querySelectorAllDoc (d : Doc) (sel : Selector) : List Path :=
  (elemPaths d.toNode).filter (selPred d.toNode sel)

/-- Embedding of `node.querySelectorAll(sels)` relative to a node: the
paths (relative to the node) of all its proper descendants matching any
of the selectors, in document order.  `elemPathsKids` never yields the
empty path, so the node itself is excluded, as `querySelectorAll`
requires. -/
def descMatchRel (n : DomNode) (sels : List Selector) : List Path :=
  match n with
  | .elem _ cs =>
    (elemPathsKids cs 0).filter (fun q =>
      match nodeAt n q with
      | some (.elem dd _) => matchesAny dd sels
      | _ => false)
  | .text _ => []

/-- `node.querySelectorAll(sels)` for an attached node at path `p`,
returning absolute paths. -/
def descMatchPaths (d : Doc) (p : Path) (sels : List Selector) : List Path :=
  match nodeAt d.toNode p with
  | some n => (descMatchRel n sels).map (fun q => p ++ q)
  | none => []

/-! ## DOM mutation -/

mutual
/-- Embedding of `el.textContent = s` at a path: replace the element's
children with a single text node. -/
def setTextAt : DomNode → Path → JSStr → DomNode
  | .elem d _, [], s => .elem d [.text s]
  | .elem d cs, i :: rest, s => .elem d (setTextKids cs i rest s)
  | n, _, _ => n

/-- `setTextAt` pushed into a child list at child index `i`. -/
def setTextKids : List DomNode → Nat → Path → JSStr → List DomNode
  | [], _, _, _ => []
  | c :: cs, 0, rest, s => setTextAt c rest s :: cs
  | c :: cs, i + 1, rest, s => c :: setTextKids cs i rest s
end

mutual
/-- Embedding of `node.remove()` for the node at a path. -/
def removeAt : DomNode → Path → DomNode
  | .elem d cs, i :: rest => .elem d (removeKids cs i rest)
  | n, _ => n

/-- `removeAt` pushed into a child list: drop the child at index `i`
when the rest of the path is empty, else recurse into it. -/
def removeKids : List DomNode → Nat → Path → List DomNode
  | [], _, _ => []
  | _ :: cs, 0, [] => cs
  | c :: cs, 0, r :: rest => removeAt c (r :: rest) :: cs
  | c :: cs, i + 1, rest => c :: removeKids cs i rest
end

mutual
/-- Embedding of `parent.appendChild(c)` for the parent at a path. -/
def appendChildAt : DomNode → Path → DomNode → DomNode
  | .elem d cs, [], c => .elem d (cs ++ [c])
  | .elem d cs, i :: rest, c => .elem d (appendKids cs i rest c)
  | n, _, _ => n

/-- `appendChildAt` pushed into a child list at child index `i`. -/
def appendKids : List DomNode → Nat → Path → DomNode → List DomNode
  | [], _, _, _ => []
  | k :: ks, 0, rest, c => appendChildAt k rest c :: ks
  | k :: ks, i + 1, rest, c => k :: appendKids ks i rest c
end

/-- Document-level `textContent` assignment. -/
def setTextAtDoc (d : Doc) (p : Path) (s : JSStr) : Doc :=
  match p with
  | [] => ⟨d.body, [DomNode.text s]⟩
  | i :: rest => ⟨d.body, setTextKids d.kids i rest s⟩

/-- Document-level node removal (removing the body itself is not a
plugin operation and is a no-op). -/
def removeAtDoc (d : Doc) (p : Path) : Doc :=
  match p with
  | [] => d
  | i :: rest => ⟨d.body, removeKids d.kids i rest⟩

/-- Document-level `appendChild`. -/
def appendChildAtDoc (d : Doc) (p : Path) (c : DomNode) : Doc :=
  match p with
  | [] => ⟨d.body, d.kids ++ [c]⟩
  | i :: rest => ⟨d.body, appendKids d.kids i rest c⟩

/-- Read the text content of the node at a path (`''` for a dangling
reference, mirroring `?? ''`). -/
def nodeTextAt (d : Doc) (p : Path) : JSStr :=
  match nodeAt d.toNode p with
  | some n => textContentN n
  | none => []

/-! ## Node containment (`isNodeInside`) -/

/-- The `while (cur)` loop of `isNodeInside`: walk `cur` up through its
parents, checking reference equality with `parent` at every step; at the
document root the next `parentNode` is null and the loop ends. -/
def walkUp (parent cur : Path) : Bool :=
  if cur = parent then true
  else
    match cur with
    | [] => false
    | a :: rest => walkUp parent (a :: rest).dropLast
termination_by cur.length
decreasing_by
  simp only [List.length_dropLast, List.length_cons]
  omega

/-- Embedding of `isNodeInside(parent, node)` (`src/unnamed/part_001`
lines 16–24): whether `node` is `parent` or a descendant of it. -/
def isNodeInside (parent : Path) (node : Option Path) : Bool :=
  match node with
  | none => false
  | some cur => walkUp parent cur

/-! ## Selection -/

/-- The observable state of a `Selection` object: the common ancestor
container of each of its ranges (so `rangeCount` is the list length and
`getRangeAt(0).commonAncestorContainer` is the head), and its string
form `sel.toString()`. -/
structure SelObj where
  rangeAncestors : List Path
  str : JSStr
deriving Repr

/-! ## Events, listeners and cleanup actions (floating variant) -/

/-- The event names the plugin listens to. -/
inductive EventType where
  | keyup
  | mouseup
  | selectionchange
deriving DecidableEq, Repr

/-- Listener function identity: the floating variant registers the
module-level `updateCounter`; the inline variant registers a per-root
closure `handler` (identified by the captured root and counter paths);
host listeners are opaque. -/
inductive Handler where
  | updateCounterH
  | inlineHandler (rootP counterP : Path)
  | other (n : Nat)
deriving DecidableEq, Repr

/-- A listener target: the document, or a specific node. -/
inductive Target where
  | document
  | node (p : Path)
deriving DecidableEq, Repr

/-- A listener registration. -/
abbrev Listener := Target × EventType × Handler

/-- The floating variant's `keyup` registration on the document. -/
def keyupL : Listener := (Target.document, EventType.keyup, Handler.updateCounterH)

/-- The floating variant's `mouseup` registration on the document. -/
def mouseupL : Listener := (Target.document, EventType.mouseup, Handler.updateCounterH)

/-- The floating variant's `selectionchange` registration on the
document. -/
def selchangeL : Listener := (Target.document, EventType.selectionchange, Handler.updateCounterH)

/-- `addEventListener`: a no-op when the identical registration is
already present (DOM semantics), else appended. -/
def addEventListener (ls : List Listener) (l : Listener) : List Listener :=
  if ls.contains l then ls else ls ++ [l]

/-- `removeEventListener`: removes the matching registration. -/
def removeEventListener (ls : List Listener) (l : Listener) : List Listener :=
  ls.erase l

/-- The teardown closures the floating variant pushes onto `cleanupFns`:
`() => { counter?.remove(); }` (capturing the counter reference) and the
listener-removal closure registered by `startObserveView`. -/
inductive FCleanup where
  | removeCounter (p : Path)
  | removeDocListeners
deriving DecidableEq, Repr

/-- The module-level mutable state of `src/unnamed/part_001` together
with its browser environment: the document, the listener registry, the
observer connection state, `cleanupFns`, `contentRoots`, the ambient
selection, and whether a browser environment is present. -/
structure World where
  doc : Doc
  listeners : List Listener
  observerConnected : Bool
  cleanupFns : List FCleanup
  contentRoots : List Path
  sel : Option SelObj
  isBrowser : Bool
deriving Repr

/-! ## Root locator (`findContentRoots`, identical in all variants) -/

/-- The `for (const sel of selectors)` loop of `findContentRoots`:
return `Array.from(document.querySelectorAll(sel))` for the first
selector with a non-empty result, else `[]`. -/
def findContentRootsGo (d : Doc) : List Selector → List Path
  | [] => []
  | sel :: rest =>
    let nodes := querySelectorAllDoc d sel
    if 0 < nodes.length then nodes else findContentRootsGo d rest

/-- Embedding of `findContentRoots` (`src/unnamed/part_001` lines
30–45). -/
def findContentRoots (d : Doc) : List Path := findContentRootsGo d contentSelectors

/-- Spec-side root locator, following the spec's words: "Return the set
of elements matched by the first selector in the list that yields at
least one match; if none match, return an empty set." -/
def findContentRootsSpec (d : Doc) : List Path :=
  match contentSelectors.find? (fun sel => !(querySelectorAllDoc d sel).isEmpty) with
  | some sel => querySelectorAllDoc d sel
  | none => []

/-! ## Floating counter surface (`src/unnamed/part_001`) -/

/-- The freshly created floating counter element:
`document.createElement('div')` with `counter.id = COUNTER_ID` (the
style assignment is presentational and not observable here). -/
def floatingCounterNode : DomNode :=
  DomNode.elem ⟨"div", some COUNTER_ID, [], none⟩ []

/-- Embedding of `ensureFloatingCounter` (`src/unnamed/part_001` lines
50–80): return the existing element with id `COUNTER_ID`, or create it,
append it to `document.body`, and register its removal on `cleanupFns`.
Returns the node reference together with the updated world. -/
def ensureFloatingCounter (w : World) : Path × World :=
  match getElementById w.doc COUNTER_ID with
  | some p => (p, w)
  | none =>
    let p : Path := [w.doc.kids.length]
    let doc1 : Doc := ⟨w.doc.body, w.doc.kids ++ [floatingCounterNode]⟩
    (p, { w with doc := doc1, cleanupFns := w.cleanupFns ++ [FCleanup.removeCounter p] })

/-- Result of one `updateCounter` call: the counter reference, the new
world, and instrumentation counting the `findContentRoots` calls made
and the `counter.textContent` assignments performed during the call. -/
structure UCResult where
  counter : Path
  world : World
  derivations : Nat
  renders : Nat
deriving Repr

/-- Embedding of `updateCounter` (`src/unnamed/part_001` lines 85–126):
ensure the counter surface, re-derive `contentRoots` when empty, then
write either the zero total, the selected form, or the total form. -/
def updateCounter (w : World) : UCResult :=
  let r := ensureFloatingCounter w
  let counter := r.1
  let w1 := r.2
  let derivations := if w1.contentRoots.length = 0 then 1 else 0
  let roots := if w1.contentRoots.length = 0 then findContentRoots w1.doc else w1.contentRoots
  let w2 := { w1 with contentRoots := roots }
  if roots.length = 0 then
    ⟨counter,
     { w2 with doc := setTextAtDoc w2.doc counter (strToJS "ページ全体: 0 文字") },
     derivations, 1⟩
  else
    let fullText := joinLines (roots.map (fun root => nodeTextAt w2.doc root))
    let selected :=
      match w2.sel with
      | some s =>
        match s.rangeAncestors.head? with
        | some anc =>
          if roots.any (fun root => isNodeInside root (some anc)) then s.str else []
        | none => []
      | none => []
    if 0 < countChars selected then
      let out := selectedForm (countChars selected) (countChars fullText)
      ⟨counter, { w2 with doc := setTextAtDoc w2.doc counter out }, derivations, 1⟩
    else
      let out := totalForm (countChars fullText)
      ⟨counter, { w2 with doc := setTextAtDoc w2.doc counter out }, derivations, 1⟩

/-! ## Spec-side views of one render cycle

These name the quantities the specification speaks about: the root set a
render uses, the concatenated document text `T`, and the qualifying
selection string `S`. -/

/-- The document as it stands when `updateCounter` reads text (after
`ensureFloatingCounter` has possibly appended the counter). -/
def docAfterEnsure (w : World) : Doc := (ensureFloatingCounter w).2.doc

/-- The content-root set a render cycle uses. -/
def rootsUsed (w : World) : List Path :=
  if (ensureFloatingCounter w).2.contentRoots.length = 0 then
    findContentRoots (docAfterEnsure w)
  else
    (ensureFloatingCounter w).2.contentRoots

/-- The concatenated text `T` of the content roots, joined by `'\n'`. -/
def fullTextUsed (w : World) : JSStr :=
  joinLines ((rootsUsed w).map (fun root => nodeTextAt (docAfterEnsure w) root))

/-- The qualifying selection string `S`: the selection's string form
when its first range's common ancestor lies inside some content root,
else empty. -/
def selectedUsed (w : World) : JSStr :=
  match w.sel with
  | some s =>
    match s.rangeAncestors.head? with
    | some anc =>
      if (rootsUsed w).any (fun root => isNodeInside root (some anc)) then s.str else []
    | none => []
  | none => []

/-! ## Lifecycle (floating variant) -/

/-- Interpret one teardown closure from `cleanupFns`. -/
def runCleanup (w : World) : FCleanup → World
  | .removeCounter p => { w with doc := removeAtDoc w.doc p }
  | .removeDocListeners =>
    let l1 := removeEventListener w.listeners keyupL
    let l2 := removeEventListener l1 mouseupL
    let l3 := removeEventListener l2 selchangeL
    { w with listeners := l3 }

/-- Embedding of `startObserveView` (`src/unnamed/part_001` lines
131–172): derive the initial roots, render once, connect the observer,
attach the three document listeners, and register their removal. -/
def startObserveView (w : World) : World :=
  let w1 := { w with contentRoots := findContentRoots w.doc }
  let w2 := (updateCounter w1).world
  let w3 := { w2 with observerConnected := true }
  let l1 := addEventListener w3.listeners keyupL
  let l2 := addEventListener l1 mouseupL
  let l3 := addEventListener l2 selchangeL
  let w4 := { w3 with listeners := l3 }
  { w4 with cleanupFns := w4.cleanupFns ++ [FCleanup.removeDocListeners] }

/-- Embedding of `activate` (`src/unnamed/part_001` lines 174–178): a
no-op outside a browser environment. -/
def activate (w : World) : World :=
  if w.isBrowser then startObserveView w else w

/-- Embedding of `deactivate` (`src/unnamed/part_001` lines 180–186):
disconnect the observer if any, then `cleanupFns.splice(0).forEach(fn => fn())`
— empty the registry and run every teardown once, in registration
order. -/
def deactivate (w : World) : World :=
  let w1 := if w.observerConnected then { w with observerConnected := false } else w
  let fns := w1.cleanupFns
  let w2 := { w1 with cleanupFns := [] }
  fns.foldl runCleanup w2

/-! ## Mutation observer (floating variant) -/

/-- A live node reference as a `MutationRecord` hands it to the
(asynchronous) callback.  A node still attached to the document at
callback time is identified by its current path (a node that merely
moved is `attached` at its new path).  A node detached again since the
mutation is still held by the record as a live object: the callback sees
the node and its frozen subtree, and `instanceof Element`,
`node.matches(...)` and `node.querySelector(...)` all work on it exactly
as for an attached node.  (An `attached` path that fails to resolve
corresponds to no real reference; every real reference is either
`attached` at a valid path or `detached` with its subtree.) -/
inductive NodeRef where
  | attached (p : Path)
  | detached (n : DomNode)
deriving Repr

/-- One `MutationRecord` as the callback reads it: the references of the
nodes reported added. -/
structure MutationRecord where
  addedNodes : List NodeRef
deriving Repr

/-- Dereference a node reference against the current document. -/
def refNode (d : Doc) : NodeRef → Option DomNode
  | .attached p => nodeAt d.toNode p
  | .detached n => some n

/-- The per-added-node test of the observer callback: the node is an
element and `node.matches(...)` or `node.querySelector(...)` finds a
content-root selector match.  Both tests are attachment-independent:
a detached element still matches. -/
def addedNodeQualifies (d : Doc) (r : NodeRef) : Bool :=
  match refNode d r with
  | some (.elem dd cs) => matchesAny dd contentSelectors || kidsHaveMatch cs contentSelectors
  | _ => false

/-- The `shouldUpdateRoots` flag computed by the callback's loop over
the batch (`src/unnamed/part_001` lines 138–151). -/
def shouldUpdateRoots (d : Doc) (records : List MutationRecord) : Bool :=
  records.any (fun m => m.addedNodes.any (addedNodeQualifies d))

/-- Result of one observer callback invocation, with instrumentation:
how many times `findContentRoots` ran and how many re-renders
(`counter.textContent` assignments) happened. -/
structure ObStats where
  world : World
  derivations : Nat
  renders : Nat
deriving Repr

/-- Embedding of the `MutationObserver` callback of the floating variant
(`src/unnamed/part_001` lines 137–157): if the flag is set, one
`contentRoots = findContentRoots()` followed by one `updateCounter()`
for the whole batch. -/
def observerCallback (records : List MutationRecord) (w : World) : ObStats :=
  if shouldUpdateRoots w.doc records then
    let w1 := { w with contentRoots := findContentRoots w.doc }
    let r := updateCounter w1
    ⟨r.world, 1 + r.derivations, r.renders⟩
  else
    ⟨w, 0, 0⟩

/-! ## Inline variant (`src/client-entry.tsx`) -/

/-- The teardown closure pushed by `attachCharCounterToView`: remove the
three listeners registered with the captured `handler`, and remove the
captured counter node. -/
inductive ICleanup where
  | inlineCleanup (rootP counterP : Path)
deriving DecidableEq, Repr

/-- The module-level state of `src/client-entry.tsx` plus its
environment (it keeps no `contentRoots` variable). -/
structure IWorld where
  doc : Doc
  listeners : List Listener
  observerConnected : Bool
  cleanupFns : List ICleanup
  sel : Option SelObj
deriving Repr

/-- The freshly created inline counter element:
`document.createElement('div')` with `counter.className = COUNTER_CLASS`. -/
def inlineCounterNode : DomNode :=
  DomNode.elem ⟨"div", none, [COUNTER_CLASS], none⟩ []

/-- Embedding of the `update` closure of `attachCharCounterToView`
(`src/client-entry.tsx` lines 50–68): read the captured root's full
`textContent`, test the selection against that single root, and write
the counter's text. -/
def inlineUpdate (d : Doc) (sel : Option SelObj) (rootP counterP : Path) : Doc :=
  let fullText := nodeTextAt d rootP
  let selected :=
    match sel with
    | some s =>
      match s.rangeAncestors.head? with
      | some anc => if isNodeInside rootP (some anc) then s.str else []
      | none => []
    | none => []
  if 0 < countChars selected then
    setTextAtDoc d counterP (selectedForm (countChars selected) (countChars fullText))
  else
    setTextAtDoc d counterP (totalForm (countChars fullText))

/-- Embedding of `attachCharCounterToView` (`src/client-entry.tsx`
lines 26–88): skip when the root already contains a counter (scoped
class lookup), else create the counter, append it as the root's last
child, attach the three listeners, render once, and register teardown.
The second component counts the `update()` calls performed (0 or 1). -/
def attachCharCounterToView (w : IWorld) (rootP : Path) : IWorld × Nat :=
  match nodeAt w.doc.toNode rootP with
  | some (.elem _ cs) =>
    if kidsHaveMatch cs [Selector.cls COUNTER_CLASS] then (w, 0)
    else
      let counterP := rootP ++ [cs.length]
      let doc1 := appendChildAtDoc w.doc rootP inlineCounterNode
      let h := Handler.inlineHandler rootP counterP
      let l1 := addEventListener w.listeners (Target.node rootP, EventType.keyup, h)
      let l2 := addEventListener l1 (Target.node rootP, EventType.mouseup, h)
      let l3 := addEventListener l2 (Target.document, EventType.selectionchange, h)
      let doc2 := inlineUpdate doc1 w.sel rootP counterP
      let cf := w.cleanupFns ++ [ICleanup.inlineCleanup rootP counterP]
      let w1 := { w with doc := doc2, listeners := l3, cleanupFns := cf }
      (w1, 1)
  | _ => (w, 0)

/-- Embedding of `attachCharCounterToView` applied to a root inside a
detached subtree (an added node removed again before the callback ran):
the scoped-class check, the counter creation and append, and the one
`update()` render all happen inside the detached tree, which stays
unreachable from the document.  A selection range anchored in the
document is never inside a detached root, so the `isNodeInside` test of
`update` fails and the total branch renders.  The two listeners attached
to the detached root can never fire again; the `selectionchange`
registration and the cleanup entry keep referencing the vanished subtree
and have no further document-observable effect, so they are not tracked.
Returns the mutated subtree and the number of renders (0 or 1). -/
def attachInTree (t : DomNode) (rootP : Path) : DomNode × Nat :=
  match nodeAt t rootP with
  | some (.elem _ cs) =>
    if kidsHaveMatch cs [Selector.cls COUNTER_CLASS] then (t, 0)
    else
      let counterP := rootP ++ [cs.length]
      let t1 := appendChildAt t rootP inlineCounterNode
      let fullText :=
        match nodeAt t1 rootP with
        | some nn => textContentN nn
        | none => []
      (setTextAt t1 counterP (totalForm (countChars fullText)), 1)
  | _ => (t, 0)

/-- Process one added-node reference of the inline observer callback
(`src/client-entry.tsx` lines 119–134): attach to the node itself when
it matches, then attach to every matching element of its subtree.  For a
node detached again before delivery the same attachments happen inside
its frozen subtree (which the document can no longer see), so only the
render count survives. -/
def inlineProcessAdded (acc : IWorld × Nat) (r : NodeRef) : IWorld × Nat :=
  match r with
  | .attached p =>
    match nodeAt acc.1.doc.toNode p with
    | some (.elem dd _) =>
      let acc1 :=
        if matchesAny dd contentSelectors then
          let a := attachCharCounterToView acc.1 p
          (a.1, acc.2 + a.2)
        else acc
      let descs := descMatchPaths acc1.1.doc p contentSelectors
      descs.foldl
        (fun a q =>
          let s := attachCharCounterToView a.1 q
          (s.1, a.2 + s.2))
        acc1
    | _ => acc
  | .detached n =>
    match n with
    | .elem dd _ =>
      let s1 :=
        if matchesAny dd contentSelectors then attachInTree n [] else (n, 0)
      let descs := descMatchRel s1.1 contentSelectors
      let s2 := descs.foldl
        (fun a q =>
          let s := attachInTree a.1 q
          (s.1, a.2 + s.2))
        s1
      (acc.1, acc.2 + s2.2)
    | .text _ => acc

/-- Embedding of the inline variant's `MutationObserver` callback
(`src/client-entry.tsx` lines 118–136), counting `update()` calls: it
attaches (and so renders) per matching node, and never touches any
content-root-set variable. -/
def inlineObserverCallback (records : List MutationRecord) (w : IWorld) : IWorld × Nat :=
  records.foldl
    (fun acc m => m.addedNodes.foldl inlineProcessAdded acc)
    (w, 0)

/-! ## Concrete documents and worlds used as test inputs -/

/-- A plain body element. -/
def bodyD : ElemData := ⟨"body", none, [], none⟩

/-- A content-root element carrying the legacy `.wiki` class. -/
def wikiD : ElemData := ⟨"div", none, ["wiki"], none⟩

/-- An element matching no plugin selector (chrome/UI). -/
def plainD : ElemData := ⟨"div", none, [], none⟩

/-- World for C1's counterexample: one `.wiki` root with text
`"hello"`, no selection, fresh module state. -/
def exC1 : World :=
  ⟨⟨bodyD, [DomNode.elem wikiD [DomNode.text (strToJS "hello")]]⟩, [], false, [], [], none, true⟩

/-- World for C2's witness: two `.wiki` roots already in the document. -/
def exC2 : World :=
  ⟨⟨bodyD, [DomNode.elem wikiD [DomNode.text (strToJS "a")],
            DomNode.elem wikiD [DomNode.text (strToJS "b")]]⟩,
   [], true, [], [], none, true⟩

/-- A mutation batch reporting both `.wiki` roots of `exC2` as added
(both still attached at callback time). -/
def exC2recs : List MutationRecord :=
  [⟨[NodeRef.attached [0]]⟩, ⟨[NodeRef.attached [1]]⟩]

/-- World for the detached-added-node regime: the document holds no
element matching any content selector at callback time. -/
def exC2d : World := ⟨⟨bodyD, []⟩, [], true, [], [], none, true⟩

/-- A batch whose single added node is a `.wiki` element that was
removed again before the callback ran: the callback still holds the
node and its subtree. -/
def exC2drecs : List MutationRecord :=
  [⟨[NodeRef.detached (DomNode.elem wikiD [DomNode.text (strToJS "a")])]⟩]

/-- Inline-variant world for C2's counterexample: a single added
container holding two `.wiki` roots. -/
def exC2x : IWorld :=
  ⟨⟨bodyD, [DomNode.elem plainD
             [DomNode.elem wikiD [DomNode.text (strToJS "a")],
              DomNode.elem wikiD [DomNode.text (strToJS "b")]]]⟩,
   [], true, [], none⟩

/-- A batch with one record whose single added node is the container,
still attached at callback time. -/
def exC2xrecs : List MutationRecord := [⟨[NodeRef.attached [0]]⟩]

/-- World for C3's witness: a `.wiki` root plus an unrelated UI element;
the selection string `"men"` is non-empty but its range lives in the UI
element. -/
def exC3 : World :=
  ⟨⟨bodyD, [DomNode.elem wikiD [DomNode.text (strToJS "hello")],
            DomNode.elem plainD [DomNode.text (strToJS "menu")]]⟩,
   [], false, [], [], some ⟨[[1]], strToJS "men"⟩, true⟩

/-- World for C5's and C6's witnesses: a pre-activation browser state
with one `.wiki` root. -/
def exC6 : World :=
  ⟨⟨bodyD, [DomNode.elem wikiD [DomNode.text (strToJS "hi")]]⟩, [], false, [], [], none, true⟩

/-- World for C8's counterexample: the document contains no element
matching any content selector, but the remembered `contentRoots` still
holds the (stale) path of a former root, now a plain element with text
`"xyz"`. -/
def exC8x : World :=
  ⟨⟨bodyD, [DomNode.elem plainD [DomNode.text (strToJS "xyz")]]⟩,
   [], true, [], [[0]], none, true⟩

/-- World for C8's witness: no selector matches and the remembered root
set is empty. -/
def exC8w : World :=
  ⟨⟨bodyD, [DomNode.elem plainD [DomNode.text (strToJS "x")]]⟩,
   [], true, [], [], none, true⟩

/-- Inline-variant world for C10's witness: one `.wiki` root with text
`"hello"` and no counter yet. -/
def exC10 : IWorld :=
  ⟨⟨bodyD, [DomNode.elem wikiD [DomNode.text (strToJS "hello")]]⟩, [], true, [], none⟩

/-! ## Basic lemmas about strings and counting -/

theorem jsLength_append (a b : JSStr) : jsLength (a ++ b) = jsLength a + jsLength b := by
  simp [jsLength]

theorem countChars_append (a b : JSStr) :
    countChars (a ++ b) = countChars a + countChars b :=
  jsLength_append a b

theorem countChars_nil : countChars [] = 0 := rfl

theorem totalForm_pos (n : Nat) : 0 < countChars (totalForm n) := by
  unfold totalForm countChars
  rw [jsLength_append, jsLength_append]
  have h : 0 < jsLength (strToJS "ページ全体: ") := by decide
  omega

theorem zero_literal_eq_totalForm : strToJS "ページ全体: 0 文字" = totalForm 0 := by decide

/-- C9: the character-length function used for both the selection count
and the document total returns the raw UTF-16 code-unit count of the
string; on the concrete supplementary-plane sample it differs from the
code-point count, and the render routine applies `countChars` to both
the selection and the full text. -/
theorem countChars_utf16_code_units :
    (∀ s : JSStr, countChars s = (s.map utf16Units).sum) ∧
    countChars astralSample = 2 ∧
    codePointCount astralSample = 1 ∧
    countChars astralSample ≠ codePointCount astralSample ∧
    (∀ fullText selected : JSStr,
      renderText fullText selected =
        if 0 < countChars selected then
          selectedForm (countChars selected) (countChars fullText)
        else totalForm (countChars fullText)) :=
  ⟨fun _ => rfl, by decide, by decide, by decide, fun _ _ => rfl⟩

/-! ## The root locator -/

theorem findContentRootsGo_eq_spec (d : Doc) (sels : List Selector) :
    findContentRootsGo d sels =
      match sels.find? (fun sel => !(querySelectorAllDoc d sel).isEmpty) with
      | some sel => querySelectorAllDoc d sel
      | none => [] := by
  induction sels with
  | nil => rfl
  | cons s rest ih =>
    by_cases h : 0 < (querySelectorAllDoc d s).length
    · have hb : (!(querySelectorAllDoc d s).isEmpty) = true := by
        cases hq : querySelectorAllDoc d s <;> simp_all
      simp [findContentRootsGo, h, List.find?_cons, hb]
    · have hb : (!(querySelectorAllDoc d s).isEmpty) = false := by
        cases hq : querySelectorAllDoc d s <;> simp_all
      simp only [findContentRootsGo, if_neg h, List.find?_cons, hb]
      exact ih

/-- C4: the root locator tries its fixed ordered selector list and
returns the full match set of the first selector that matches at least
one element, and the empty set when none matches.  (`findContentRoots`
is a pure function of the document — the embedding's type `Doc → List
Path` records that it has no side effects.) -/
theorem findContentRoots_first_match (d : Doc) :
    findContentRoots d = findContentRootsSpec d :=
  findContentRootsGo_eq_spec d contentSelectors

/-! ## Lifecycle: `deactivate` -/

theorem runCleanup_observer (w : World) (a : FCleanup) :
    (runCleanup w a).observerConnected = w.observerConnected := by
  cases a <;> rfl

theorem runCleanup_cleanupFns (w : World) (a : FCleanup) :
    (runCleanup w a).cleanupFns = w.cleanupFns := by
  cases a <;> rfl

theorem foldl_runCleanup_observer (fns : List FCleanup) :
    ∀ w : World, (fns.foldl runCleanup w).observerConnected = w.observerConnected := by
  induction fns with
  | nil => intro w; rfl
  | cons a rest ih => intro w; rw [List.foldl_cons, ih, runCleanup_observer]

theorem foldl_runCleanup_cleanupFns (fns : List FCleanup) :
    ∀ w : World, (fns.foldl runCleanup w).cleanupFns = w.cleanupFns := by
  induction fns with
  | nil => intro w; rfl
  | cons a rest ih => intro w; rw [List.foldl_cons, ih, runCleanup_cleanupFns]

theorem world_eta_of_fields (w : World) (h1 : w.observerConnected = false)
    (h2 : w.cleanupFns = []) :
    ({ w with observerConnected := false, cleanupFns := [] } : World) = w := by
  cases w
  subst h1
  subst h2
  rfl

theorem deactivate_eq_drain (w : World) :
    deactivate w =
      w.cleanupFns.foldl runCleanup { w with observerConnected := false, cleanupFns := [] } := by
  unfold deactivate
  by_cases h : w.observerConnected
  · simp [h]
  · have hf : w.observerConnected = false := by simpa using h
    have : ({ w with observerConnected := false, cleanupFns := [] } : World)
        = { w with cleanupFns := [] } := by
      cases w
      subst hf
      rfl
    simp [hf, this]

theorem deactivate_observer (w : World) : (deactivate w).observerConnected = false := by
  rw [deactivate_eq_drain, foldl_runCleanup_observer]

theorem deactivate_cleanupFns (w : World) : (deactivate w).cleanupFns = [] := by
  rw [deactivate_eq_drain, foldl_runCleanup_cleanupFns]

/-- C7: `deactivate` disconnects the observer and resets it to idle,
then drains the cleanup registry completely in registration order (the
`foldl` runs every registered teardown exactly once, first-registered
first, on a registry that was emptied up front); consequently a second
`deactivate` finds an empty registry and a nil observer and changes
nothing. -/
theorem deactivate_drains_and_is_idempotent :
    (∀ w : World, deactivate w =
        w.cleanupFns.foldl runCleanup
          { w with observerConnected := false, cleanupFns := [] }) ∧
    (∀ w : World, (deactivate w).observerConnected = false) ∧
    (∀ w : World, (deactivate w).cleanupFns = []) ∧
    (∀ w : World, deactivate (deactivate w) = deactivate w) := by
  refine ⟨deactivate_eq_drain, deactivate_observer, deactivate_cleanupFns, fun w => ?_⟩
  rw [deactivate_eq_drain (deactivate w), deactivate_cleanupFns w]
  rw [world_eta_of_fields (deactivate w) (deactivate_observer w) (deactivate_cleanupFns w)]
  rfl

/-! ## Structural lemmas about the DOM embedding -/

theorem textContentL_append (l₁ l₂ : List DomNode) :
    textContentL (l₁ ++ l₂) = textContentL l₁ ++ textContentL l₂ := by
  induction l₁ with
  | nil => simp [textContentL]
  | cons c cs ih => simp [textContentL, ih]

theorem setTextKids_get? (cs : List DomNode) :
    ∀ (i : Nat) (rest : Path) (s : JSStr),
      (setTextKids cs i rest s).get? i = (cs.get? i).map (fun c => setTextAt c rest s) := by
  induction cs with
  | nil => intro i rest s; simp [setTextKids]
  | cons c cs ih =>
    intro i rest s
    cases i with
    | zero => simp [setTextKids]
    | succ n => simpa [setTextKids] using ih n rest s

theorem nodeAt_setTextAt :
    ∀ (p : Path) (n : DomNode) (d : ElemData) (cs : List DomNode) (s : JSStr),
      nodeAt n p = some (.elem d cs) →
      nodeAt (setTextAt n p s) p = some (.elem d [.text s]) := by
  intro p
  induction p with
  | nil =>
    intro n d cs s h
    cases n with
    | elem dd cc =>
      simp only [nodeAt, Option.some.injEq] at h
      cases h
      rfl
    | text t => simp [nodeAt] at h
  | cons i rest ih =>
    intro n d cs s h
    cases n with
    | text t => simp [nodeAt] at h
    | elem dd cc =>
      simp only [nodeAt] at h ⊢
      cases hg : cc.get? i with
      | none => rw [hg] at h; simp at h
      | some c =>
        rw [hg] at h
        show nodeAt (DomNode.elem dd (setTextKids cc i rest s)) (i :: rest) = _
        simp only [nodeAt]
        rw [setTextKids_get? cc i rest s, hg]
        simpa using ih c d cs s h

theorem toNode_setTextAtDoc (d : Doc) (p : Path) (s : JSStr) :
    (setTextAtDoc d p s).toNode = setTextAt d.toNode p s := by
  cases p <;> rfl

theorem nodeTextAt_setTextAtDoc (d : Doc) (p : Path) (s : JSStr)
    (dd : ElemData) (cs : List DomNode)
    (h : nodeAt d.toNode p = some (.elem dd cs)) :
    nodeTextAt (setTextAtDoc d p s) p = s := by
  unfold nodeTextAt
  rw [toNode_setTextAtDoc, nodeAt_setTextAt p d.toNode dd cs s h]
  simp [textContentN, textContentL]

theorem setTextKids_concat (l : List DomNode) (c : DomNode) (rest : Path) (s : JSStr) :
    setTextKids (l ++ [c]) l.length rest s = l ++ [setTextAt c rest s] := by
  induction l with
  | nil => rfl
  | cons x xs ih => simp [setTextKids, ih]

theorem removeKids_concat (l : List DomNode) (c : DomNode) :
    removeKids (l ++ [c]) l.length [] = l := by
  induction l with
  | nil => rfl
  | cons x xs ih => simp [removeKids, ih]

theorem elemPathsKids_append (l₁ l₂ : List DomNode) :
    ∀ i : Nat, elemPathsKids (l₁ ++ l₂) i
      = elemPathsKids l₁ i ++ elemPathsKids l₂ (i + l₁.length) := by
  induction l₁ with
  | nil => intro i; simp [elemPathsKids]
  | cons c cs ih =>
    intro i
    have harith : i + 1 + cs.length = i + (cs.length + 1) := by omega
    simp [elemPathsKids, ih (i + 1), harith]

theorem mem_elemPathsKids (l : List DomNode) :
    ∀ (i : Nat) (p : Path),
      p ∈ elemPathsKids l i ↔
        ∃ j rest, p = (i + j) :: rest ∧ ∃ c, l.get? j = some c ∧ rest ∈ elemPaths c := by
  induction l with
  | nil => intro i p; simp [elemPathsKids]
  | cons c cs ih =>
    intro i p
    simp only [elemPathsKids, List.mem_append, List.mem_map, ih (i + 1)]
    constructor
    · rintro (⟨q, hq, rfl⟩ | ⟨j, rest, rfl, c', hc', hrest⟩)
      · exact ⟨0, q, by simp, c, by simp, hq⟩
      · refine ⟨j + 1, rest, ?_, c', by simpa using hc', hrest⟩
        have : i + 1 + j = i + (j + 1) := by omega
        rw [this]
    · rintro ⟨j, rest, hp, c', hc', hrest⟩
      cases j with
      | zero =>
        left
        simp only [List.get?_cons_zero, Option.some.injEq] at hc'
        subst hc'
        exact ⟨rest, hrest, by simpa using hp.symm⟩
      | succ n =>
        right
        refine ⟨n, rest, ?_, c', by simpa using hc', hrest⟩
        have : i + (n + 1) = i + 1 + n := by omega
        rw [hp, this]

theorem nodeAt_elem_mem_elemPaths :
    ∀ (p : Path) (n : DomNode) (d : ElemData) (cs : List DomNode),
      nodeAt n p = some (.elem d cs) → p ∈ elemPaths n := by
  intro p
  induction p with
  | nil =>
    intro n d cs h
    cases n with
    | elem dd cc => simp [elemPaths]
    | text t => simp [nodeAt] at h
  | cons i rest ih =>
    intro n d cs h
    cases n with
    | text t => simp [nodeAt] at h
    | elem dd cc =>
      simp only [nodeAt] at h
      cases hg : cc.get? i with
      | none => rw [hg] at h; simp at h
      | some c =>
        rw [hg] at h
        have hmem : rest ∈ elemPaths c := ih c d cs h
        simp only [elemPaths, List.mem_cons]
        right
        exact (mem_elemPathsKids cc 0 (i :: rest)).mpr
          ⟨i, rest, by simp, c, hg, hmem⟩

theorem nodeAt_append_path :
    ∀ (p : Path) (q : Path) (n m : DomNode),
      nodeAt n p = some m → nodeAt n (p ++ q) = nodeAt m q := by
  intro p
  induction p with
  | nil =>
    intro q n m h
    simp only [nodeAt, Option.some.injEq] at h
    subst h
    rfl
  | cons i rest ih =>
    intro q n m h
    cases n with
    | text t => simp [nodeAt] at h
    | elem dd cc =>
      simp only [nodeAt] at h
      simp only [List.cons_append, nodeAt]
      cases hg : cc.get? i with
      | none => rw [hg] at h; simp at h
      | some c =>
        rw [hg] at h
        exact ih q c m h

theorem find?_append_of_none {α : Type} (p : α → Bool) (l₁ l₂ : List α)
    (h : l₁.find? p = none) :
    (l₁ ++ l₂).find? p = l₂.find? p := by
  rw [List.find?_append, h, Option.none_or]

theorem get?_append_left {α : Type} (l₁ l₂ : List α) (n : Nat) (h : n < l₁.length) :
    (l₁ ++ l₂).get? n = l₁.get? n := by
  simp [List.get?_eq_getElem?, List.getElem?_append_left h]

theorem get?_concat_len {α : Type} (l : List α) (a : α) :
    (l ++ [a]).get? l.length = some a := by
  simp [List.get?_eq_getElem?]

theorem getElementById_append (b : ElemData) (kids : List DomNode)
    (d : ElemData) (cs : List DomNode) (i : String)
    (hnone : getElementById ⟨b, kids⟩ i = none) (hid : d.idAttr = some i) :
    getElementById ⟨b, kids ++ [DomNode.elem d cs]⟩ i = some [kids.length] := by
  have hall : ∀ p ∈ ([] : Path) :: elemPathsKids kids 0,
      ¬ elemIdPred (DomNode.elem b kids) i p = true := by
    have := List.find?_eq_none.mp hnone
    simpa [getElementById, Doc.toNode, elemPaths] using this
  have hstab : ∀ p ∈ elemPathsKids kids 0,
      elemIdPred (DomNode.elem b (kids ++ [DomNode.elem d cs])) i p
        = elemIdPred (DomNode.elem b kids) i p := by
    intro p hp
    obtain ⟨j, rest, rfl, c, hc, hrest⟩ := (mem_elemPathsKids kids 0 p).mp hp
    have hj : j < kids.length := by
      rw [List.get?_eq_getElem?] at hc
      exact (List.getElem?_eq_some.mp hc).1
    simp only [elemIdPred, nodeAt, Nat.zero_add]
    rw [get?_append_left kids [DomNode.elem d cs] j hj]
  unfold getElementById Doc.toNode
  simp only [elemPaths, elemPathsKids_append, Nat.zero_add]
  have h1 : elemIdPred (DomNode.elem b (kids ++ [DomNode.elem d cs])) i [] = false := by
    have := hall [] (by simp)
    simpa [elemIdPred, nodeAt] using this
  rw [List.find?_cons_of_neg _ (by simp [h1])]
  have h2 : (elemPathsKids kids 0).find?
      (elemIdPred (DomNode.elem b (kids ++ [DomNode.elem d cs])) i) = none := by
    rw [List.find?_eq_none]
    intro p hp
    rw [hstab p hp]
    exact hall p (List.mem_cons_of_mem _ hp)
  rw [find?_append_of_none _ _ _ h2]
  have h3 : elemIdPred (DomNode.elem b (kids ++ [DomNode.elem d cs])) i [kids.length] = true := by
    simp only [elemIdPred, nodeAt]
    rw [get?_concat_len]
    simp [hid]
  simp only [elemPathsKids, elemPaths, List.map_cons, List.append_nil]
  rw [List.find?_cons_of_pos _ h3]

/-! ## The floating counter surface -/

theorem ensure_sel (w : World) : (ensureFloatingCounter w).2.sel = w.sel := by
  cases hg : getElementById w.doc COUNTER_ID <;> simp [ensureFloatingCounter, hg]

theorem ensure_contentRoots (w : World) :
    (ensureFloatingCounter w).2.contentRoots = w.contentRoots := by
  cases hg : getElementById w.doc COUNTER_ID <;> simp [ensureFloatingCounter, hg]

theorem ensure_listeners (w : World) :
    (ensureFloatingCounter w).2.listeners = w.listeners := by
  cases hg : getElementById w.doc COUNTER_ID <;> simp [ensureFloatingCounter, hg]

theorem ensure_observer (w : World) :
    (ensureFloatingCounter w).2.observerConnected = w.observerConnected := by
  cases hg : getElementById w.doc COUNTER_ID <;> simp [ensureFloatingCounter, hg]

theorem ensure_isBrowser (w : World) :
    (ensureFloatingCounter w).2.isBrowser = w.isBrowser := by
  cases hg : getElementById w.doc COUNTER_ID <;> simp [ensureFloatingCounter, hg]

theorem ensure_of_some (w : World) (p : Path)
    (h : getElementById w.doc COUNTER_ID = some p) :
    ensureFloatingCounter w = (p, w) := by
  simp [ensureFloatingCounter, h]

theorem ensure_of_none (w : World)
    (h : getElementById w.doc COUNTER_ID = none) :
    ensureFloatingCounter w =
      ([w.doc.kids.length],
       { w with doc := ⟨w.doc.body, w.doc.kids ++ [floatingCounterNode]⟩,
                cleanupFns := w.cleanupFns
                  ++ [FCleanup.removeCounter [w.doc.kids.length]] }) := by
  simp [ensureFloatingCounter, h]

theorem getElementById_after_create (w : World)
    (h : getElementById w.doc COUNTER_ID = none) :
    getElementById ⟨w.doc.body, w.doc.kids ++ [floatingCounterNode]⟩ COUNTER_ID
      = some [w.doc.kids.length] :=
  getElementById_append w.doc.body w.doc.kids ⟨"div", some COUNTER_ID, [], none⟩ []
    COUNTER_ID h rfl

/-- C5: calling the surface-creation routine twice in a row without an
intervening teardown returns the same single surface node both times and
creates no duplicate: the second call finds the node by its fixed id and
returns it — and the whole world — unchanged. -/
theorem ensureFloatingCounter_idempotent (w : World) :
    ensureFloatingCounter (ensureFloatingCounter w).2 = ensureFloatingCounter w := by
  cases hg : getElementById w.doc COUNTER_ID with
  | some p =>
    rw [ensure_of_some w p hg]
    exact ensure_of_some w p hg
  | none =>
    rw [ensure_of_none w hg]
    exact ensure_of_some _ _ (getElementById_after_create w hg)

/-- The counter reference produced by `ensureFloatingCounter` always
resolves to an element of the ensured document. -/
theorem nodeAt_docAfterEnsure_counter (w : World) :
    ∃ dd cols, nodeAt (docAfterEnsure w).toNode (ensureFloatingCounter w).1
      = some (DomNode.elem dd cols) := by
  cases hg : getElementById w.doc COUNTER_ID with
  | some p =>
    rw [docAfterEnsure, ensure_of_some w p hg]
    have hpred := List.find?_some hg
    unfold elemIdPred at hpred
    cases hn : nodeAt w.doc.toNode p with
    | none => rw [hn] at hpred; simp at hpred
    | some m =>
      cases m with
      | elem dd cols => exact ⟨dd, cols, rfl⟩
      | text t => rw [hn] at hpred; simp at hpred
  | none =>
    rw [docAfterEnsure, ensure_of_none w hg]
    refine ⟨⟨"div", some COUNTER_ID, [], none⟩, [], ?_⟩
    show nodeAt (DomNode.elem w.doc.body (w.doc.kids ++ [floatingCounterNode]))
        [w.doc.kids.length] = _
    simp only [nodeAt]
    rw [get?_concat_len]
    rfl

theorem updateCounter_spec (w : World) :
    updateCounter w =
      ⟨(ensureFloatingCounter w).1,
       { (ensureFloatingCounter w).2 with
           contentRoots := rootsUsed w,
           doc := setTextAtDoc (docAfterEnsure w) (ensureFloatingCounter w).1
                    (renderText (fullTextUsed w) (selectedUsed w)) },
       if (ensureFloatingCounter w).2.contentRoots.length = 0 then 1 else 0,
       1⟩ := by
  unfold updateCounter
  simp only [rootsUsed, fullTextUsed, selectedUsed, docAfterEnsure, renderText, ensure_sel]
  by_cases h1 : (ensureFloatingCounter w).2.contentRoots.length = 0
  · simp only [h1, eq_self_iff_true, if_true]
    by_cases h2 : (findContentRoots (ensureFloatingCounter w).2.doc).length = 0
    · have hnil : findContentRoots (ensureFloatingCounter w).2.doc = [] :=
        List.length_eq_zero.mp h2
      simp only [h2, eq_self_iff_true, if_true, hnil, List.map_nil, List.any_nil,
        Bool.false_eq_true, if_false]
      cases hs : w.sel with
      | none =>
        simp [joinLines, countChars, jsLength, zero_literal_eq_totalForm]
      | some s =>
        cases hh : s.rangeAncestors.head? <;>
          simp [hh, joinLines, countChars, jsLength, zero_literal_eq_totalForm]
    · simp only [if_neg h2]
      split
      next h3 => simp only [if_pos h3]
      next h3 => simp only [if_neg h3]
  · simp only [if_neg h1]
    split
    next h3 => simp only [if_pos h3]
    next h3 => simp only [if_neg h3]


/-- The text read back at the counter surface after one `updateCounter`
call is exactly the rendered output for the root set, full text and
qualifying selection of that cycle. -/
theorem updateCounter_sets_text (w : World) :
    nodeTextAt (updateCounter w).world.doc (updateCounter w).counter
      = renderText (fullTextUsed w) (selectedUsed w) := by
  obtain ⟨dd, cols, hn⟩ := nodeAt_docAfterEnsure_counter w
  rw [updateCounter_spec]
  exact nodeTextAt_setTextAtDoc _ _ _ dd cols hn

/-- C1 (amended): for every content-root set with concatenated text T
and qualifying selection string S, when S is non-empty the render
routine sets the counter surface's text to exactly
`選択中: {len(S)} 文字 / ページ全体: {len(T)} 文字`, and when S is empty to
exactly `ページ全体: {len(T)} 文字` (`selectedForm` and `totalForm` are the
code's template literals). -/
theorem render_sets_japanese_counter_text (w : World) :
    nodeTextAt (updateCounter w).world.doc (updateCounter w).counter
      = if 0 < countChars (selectedUsed w) then
          selectedForm (countChars (selectedUsed w)) (countChars (fullTextUsed w))
        else
          totalForm (countChars (fullTextUsed w)) :=
  updateCounter_sets_text w

/-- C1 counterexample: at a document with one `.wiki` root holding
"hello" and no selection, the render routine writes the Japanese
literal, not the English "Document total: 5 characters" the claim
states. -/
theorem render_text_not_english :
    fullTextUsed exC1 = strToJS "hello" ∧
    selectedUsed exC1 = [] ∧
    countChars (fullTextUsed exC1) = 5 ∧
    nodeTextAt (updateCounter exC1).world.doc (updateCounter exC1).counter
      = strToJS "ページ全体: 5 文字" ∧
    nodeTextAt (updateCounter exC1).world.doc (updateCounter exC1).counter
      ≠ strToJS "Document total: 5 characters" := by
  refine ⟨by decide, by decide, by decide, by decide, by decide⟩

/-- C3: for every selection whose first range's common ancestor
container is inside no element of the content-root set, the render
routine treats the selection as empty: the output is the no-selection
form even when the selection string is non-empty. -/
theorem selection_outside_all_roots_ignored (w : World) (s : SelObj) (anc : Path)
    (hsel : w.sel = some s) (hanc : s.rangeAncestors.head? = some anc)
    (hout : ∀ r ∈ rootsUsed w, isNodeInside r (some anc) = false) :
    nodeTextAt (updateCounter w).world.doc (updateCounter w).counter
      = totalForm (countChars (fullTextUsed w)) := by
  have hany : ((rootsUsed w).any fun root => isNodeInside root (some anc)) = false := by
    rw [List.any_eq_false]
    intro r hr
    simp [hout r hr]
  have hsel0 : selectedUsed w = [] := by
    unfold selectedUsed
    rw [hsel]
    simp only
    rw [hanc]
    simp [hany]
  have h := updateCounter_sets_text w
  rw [hsel0] at h
  simpa [renderText, countChars, jsLength] using h

/-- C3 witness: a non-empty selection ("men") inside a chrome element
outside the `.wiki` root renders the no-selection form. -/
theorem selection_outside_witness :
    exC3.sel = some ⟨[[1]], strToJS "men"⟩ ∧
    0 < countChars (strToJS "men") ∧
    nodeTextAt (updateCounter exC3).world.doc (updateCounter exC3).counter
      = totalForm (countChars (fullTextUsed exC3)) :=
  ⟨rfl, by decide,
   selection_outside_all_roots_ignored exC3 ⟨[[1]], strToJS "men"⟩ [1] rfl rfl
     (by
       have hroots : rootsUsed exC3 = [[0]] := by decide
       rw [hroots]
       intro r hr
       simp only [List.mem_singleton] at hr
       subst hr
       simp [isNodeInside, walkUp])⟩

/-- C8 (amended): whenever no content-root selector matches any element
in the document and the remembered content-root set is empty, a render
cycle makes the counter display the zero-character document total
`ページ全体: 0 文字` rather than failing or displaying nothing. -/
theorem no_roots_found_renders_zero (w : World)
    (hcr : w.contentRoots = [])
    (hfind : findContentRoots (docAfterEnsure w) = []) :
    nodeTextAt (updateCounter w).world.doc (updateCounter w).counter
      = strToJS "ページ全体: 0 文字" := by
  have h1 : rootsUsed w = [] := by
    unfold rootsUsed
    rw [ensure_contentRoots, hcr]
    simpa using hfind
  have hsel0 : selectedUsed w = [] := by
    unfold selectedUsed
    cases hs : w.sel with
    | none => rfl
    | some s => cases hh : s.rangeAncestors.head? <;> simp [hh, h1]
  have hfull : fullTextUsed w = [] := by
    unfold fullTextUsed
    rw [h1]
    rfl
  have h := updateCounter_sets_text w
  rw [hsel0, hfull] at h
  rw [zero_literal_eq_totalForm]
  simpa [renderText, countChars, jsLength] using h

/-- C8 counterexample: with a stale non-empty remembered root set
pointing at a now-unmatched element with text "xyz", a render cycle
shows a 3-character total although no selector matches anything — the
claim's "whenever" quantification fails. -/
theorem stale_roots_nonzero_total :
    findContentRoots exC8x.doc = [] ∧
    (contentSelectors.all fun sel => (querySelectorAllDoc exC8x.doc sel).isEmpty) = true ∧
    nodeTextAt (updateCounter exC8x).world.doc (updateCounter exC8x).counter
      = strToJS "ページ全体: 3 文字" ∧
    nodeTextAt (updateCounter exC8x).world.doc (updateCounter exC8x).counter
      ≠ strToJS "ページ全体: 0 文字" := by
  refine ⟨by decide, by decide, by decide, by decide⟩

/-- C8 witness: empty remembered roots and no selector match yield the
zero total. -/
theorem no_roots_zero_witness :
    exC8w.contentRoots = [] ∧
    findContentRoots (docAfterEnsure exC8w) = [] ∧
    nodeTextAt (updateCounter exC8w).world.doc (updateCounter exC8w).counter
      = strToJS "ページ全体: 0 文字" :=
  ⟨rfl, by decide, no_roots_found_renders_zero exC8w rfl (by decide)⟩


mutual

theorem subtreeHasMatch_sound : ∀ (n : DomNode) (sels : List Selector),
    subtreeHasMatch n sels = true →
    ∃ q dd cc, nodeAt n q = some (DomNode.elem dd cc) ∧ matchesAny dd sels = true
  | .elem d cs, sels, h => by
    rw [subtreeHasMatch, Bool.or_eq_true] at h
    cases h with
    | inl hm => exact ⟨[], d, cs, rfl, hm⟩
    | inr hk =>
      obtain ⟨j, c, rest, dd, cc, hg, hn, hm⟩ := kidsHaveMatch_sound cs sels hk
      refine ⟨j :: rest, dd, cc, ?_, hm⟩
      simp only [nodeAt]
      rw [hg]
      exact hn

theorem kidsHaveMatch_sound : ∀ (l : List DomNode) (sels : List Selector),
    kidsHaveMatch l sels = true →
    ∃ j c rest dd cc, l.get? j = some c ∧ nodeAt c rest = some (DomNode.elem dd cc)
      ∧ matchesAny dd sels = true
  | [], sels, h => by simp [kidsHaveMatch] at h
  | c :: cs, sels, h => by
    rw [kidsHaveMatch, Bool.or_eq_true] at h
    cases h with
    | inl hs =>
      obtain ⟨q, dd, cc, hn, hm⟩ := subtreeHasMatch_sound c sels hs
      exact ⟨0, c, q, dd, cc, by simp, hn, hm⟩
    | inr hk =>
      obtain ⟨j, c2, rest, dd, cc, hg, hn, hm⟩ := kidsHaveMatch_sound cs sels hk
      exact ⟨j + 1, c2, rest, dd, cc, by simpa using hg, hn, hm⟩

end


theorem querySelectorAllDoc_ne_nil (d : Doc) (sel : Selector) (p : Path)
    (dd : ElemData) (cc : List DomNode)
    (hn : nodeAt d.toNode p = some (DomNode.elem dd cc)) (hm : matchesSel dd sel = true) :
    querySelectorAllDoc d sel ≠ [] := by
  have hmem : p ∈ elemPaths d.toNode := nodeAt_elem_mem_elemPaths p d.toNode dd cc hn
  have hpred : selPred d.toNode sel p = true := by
    unfold selPred
    rw [hn]
    exact hm
  exact List.ne_nil_of_mem (List.mem_filter.mpr ⟨hmem, hpred⟩)

theorem findContentRootsGo_ne_nil (d : Doc) :
    ∀ sels : List Selector, (∃ sel ∈ sels, querySelectorAllDoc d sel ≠ []) →
      findContentRootsGo d sels ≠ [] := by
  intro sels
  induction sels with
  | nil =>
    rintro ⟨sel, h, _⟩
    simp at h
  | cons s rest ih =>
    rintro ⟨sel, hmem, hne⟩
    by_cases h : 0 < (querySelectorAllDoc d s).length
    · have hred : findContentRootsGo d (s :: rest) = querySelectorAllDoc d s := by
        simp [findContentRootsGo, h]
      rw [hred]
      intro hc
      rw [hc] at h
      simp at h
    · have hnil : querySelectorAllDoc d s = [] := by
        cases hq : querySelectorAllDoc d s with
        | nil => rfl
        | cons a l => rw [hq] at h; simp at h
      have hstep : findContentRootsGo d (s :: rest) = findContentRootsGo d rest := by
        simp [findContentRootsGo, h]
      rw [hstep]
      apply ih
      cases List.mem_cons.mp hmem with
      | inl he => subst he; exact absurd hnil hne
      | inr hr => exact ⟨sel, hr, hne⟩

theorem matchesAny_exists (dd : ElemData) (sels : List Selector)
    (h : matchesAny dd sels = true) : ∃ sel ∈ sels, matchesSel dd sel = true := by
  simpa [matchesAny, List.any_eq_true] using h

theorem findContentRoots_ne_nil_of_attached_qualifies (d : Doc) (p : Path)
    (h : addedNodeQualifies d (NodeRef.attached p) = true) : findContentRoots d ≠ [] := by
  have h0 : (match nodeAt d.toNode p with
      | some (DomNode.elem dd cs) =>
          matchesAny dd contentSelectors || kidsHaveMatch cs contentSelectors
      | _ => false) = true := h
  cases hn : nodeAt d.toNode p with
  | none => rw [hn] at h0; simp at h0
  | some m =>
    rw [hn] at h0
    cases m with
    | text t => simp at h0
    | elem dd cc =>
      have h2 : (matchesAny dd contentSelectors || kidsHaveMatch cc contentSelectors) = true := h0
      rw [Bool.or_eq_true] at h2
      cases h2 with
      | inl hm =>
        obtain ⟨sel, hmem, hms⟩ := matchesAny_exists dd contentSelectors hm
        exact findContentRootsGo_ne_nil d contentSelectors
          ⟨sel, hmem, querySelectorAllDoc_ne_nil d sel p dd cc hn hms⟩
      | inr hk =>
        obtain ⟨j, c, rest, dd2, cc2, hg, hn2, hm2⟩ :=
          kidsHaveMatch_sound cc contentSelectors hk
        have hcomp : nodeAt d.toNode (p ++ j :: rest) = some (DomNode.elem dd2 cc2) := by
          rw [nodeAt_append_path p (j :: rest) d.toNode (DomNode.elem dd cc) hn]
          simp only [nodeAt]
          rw [hg]
          exact hn2
        obtain ⟨sel, hmem, hms⟩ := matchesAny_exists dd2 contentSelectors hm2
        exact findContentRootsGo_ne_nil d contentSelectors
          ⟨sel, hmem, querySelectorAllDoc_ne_nil d sel _ dd2 cc2 hcomp hms⟩

theorem updateCounter_renders_one (w : World) : (updateCounter w).renders = 1 := by
  rw [updateCounter_spec]

theorem updateCounter_derivations (w : World) :
    (updateCounter w).derivations = if w.contentRoots.length = 0 then 1 else 0 := by
  rw [updateCounter_spec, ensure_contentRoots]

/-- C2 (amended, floating variant): for every batch delivered while
watching that contains at least one added element node matching (or
containing a descendant matching) a watched selector, the callback
performs exactly one re-render for the whole batch, and exactly one
re-derivation of the content-root set when a content selector still
matches the document at callback time; when none does any more (every
matching added node having been detached again before delivery), the
render routine immediately repeats the derivation, for exactly two in
total.  In neither regime is the work repeated per matching mutation
record or per matching node; in particular a batch with an added
element still attached always yields exactly one derivation.  (The
inline variant instead attaches and renders once per matching node; see
the counterexample.) -/
theorem observer_callback_batched (records : List MutationRecord) (w : World)
    (h : ∃ m ∈ records, ∃ r ∈ m.addedNodes, addedNodeQualifies w.doc r = true) :
    (observerCallback records w).renders = 1 ∧
    (observerCallback records w).derivations
      = (if (findContentRoots w.doc).length = 0 then 2 else 1) ∧
    ((∃ m ∈ records, ∃ p : Path, NodeRef.attached p ∈ m.addedNodes ∧
        addedNodeQualifies w.doc (NodeRef.attached p) = true) →
      (observerCallback records w).derivations = 1) := by
  obtain ⟨m, hm, r, hr, hq⟩ := h
  have hflag : shouldUpdateRoots w.doc records = true := by
    unfold shouldUpdateRoots
    rw [List.any_eq_true]
    exact ⟨m, hm, List.any_eq_true.mpr ⟨r, hr, hq⟩⟩
  have hder : (observerCallback records w).derivations
      = (if (findContentRoots w.doc).length = 0 then 2 else 1) := by
    unfold observerCallback
    rw [if_pos hflag]
    show 1 + (updateCounter { w with contentRoots := findContentRoots w.doc }).derivations = _
    rw [updateCounter_derivations]
    by_cases hlen : (findContentRoots w.doc).length = 0
    · simp [hlen]
    · simp [hlen]
  refine ⟨?_, hder, ?_⟩
  · unfold observerCallback
    rw [if_pos hflag]
    show (updateCounter { w with contentRoots := findContentRoots w.doc }).renders = 1
    exact updateCounter_renders_one _
  · rintro ⟨m2, _, p, _, hq2⟩
    have hne : findContentRoots w.doc ≠ [] :=
      findContentRoots_ne_nil_of_attached_qualifies w.doc p hq2
    have hlen : ¬ (findContentRoots w.doc).length = 0 := by
      intro hc
      exact hne (List.length_eq_zero.mp hc)
    rw [hder, if_neg hlen]

/-- C2 witness: a batch reporting two matching added roots, both still
attached, causes exactly one derivation and one render. -/
theorem observer_batched_witness :
    (∃ m ∈ exC2recs, ∃ r ∈ m.addedNodes, addedNodeQualifies exC2.doc r = true) ∧
    (observerCallback exC2recs exC2).renders = 1 ∧
    (observerCallback exC2recs exC2).derivations = 1 :=
  ⟨by decide,
   (observer_callback_batched exC2recs exC2 (by decide)).1,
   (observer_callback_batched exC2recs exC2 (by decide)).2.2
     ⟨⟨[NodeRef.attached [0]]⟩, by simp [exC2recs], [0], by simp, by decide⟩⟩

/-- The detached regime concretely: a matching `.wiki` element added and
removed again before delivery still sets the flag, the document-wide
re-derivation finds nothing, and the render routine repeats it — two
derivations and one render for the batch. -/
theorem detached_added_node_two_derivations :
    (∃ m ∈ exC2drecs, ∃ r ∈ m.addedNodes, addedNodeQualifies exC2d.doc r = true) ∧
    (observerCallback exC2drecs exC2d).derivations = 2 ∧
    (observerCallback exC2drecs exC2d).renders = 1 :=
  ⟨by decide, by decide, by decide⟩

/-- C2 counterexample: in the inline variant, one added container
holding two `.wiki` roots makes the observer callback render twice (once
per matching node) and re-derive no content-root set at all, refuting
the claim for that variant. -/
theorem inline_callback_renders_per_node :
    addedNodeQualifies exC2x.doc (NodeRef.attached [0]) = true ∧
    (inlineObserverCallback exC2xrecs exC2x).2 = 2 ∧
    (inlineObserverCallback exC2xrecs exC2x).2 ≠ 1 :=
  ⟨by decide, by decide, by decide⟩


theorem updateCounter_world_doc (w : World) :
    (updateCounter w).world.doc =
      setTextAtDoc (docAfterEnsure w) (ensureFloatingCounter w).1
        (renderText (fullTextUsed w) (selectedUsed w)) := by
  rw [updateCounter_spec]

theorem updateCounter_world_listeners (w : World) :
    (updateCounter w).world.listeners = w.listeners := by
  rw [updateCounter_spec]
  exact ensure_listeners w

theorem updateCounter_world_observer (w : World) :
    (updateCounter w).world.observerConnected = w.observerConnected := by
  rw [updateCounter_spec]
  exact ensure_observer w

theorem updateCounter_world_cleanupFns (w : World) :
    (updateCounter w).world.cleanupFns = (ensureFloatingCounter w).2.cleanupFns := by
  rw [updateCounter_spec]

theorem updateCounter_world_sel (w : World) :
    (updateCounter w).world.sel = w.sel := by
  rw [updateCounter_spec]
  exact ensure_sel w

theorem updateCounter_world_isBrowser (w : World) :
    (updateCounter w).world.isBrowser = w.isBrowser := by
  rw [updateCounter_spec]
  exact ensure_isBrowser w

theorem setText_on_appended (b : ElemData) (kids : List DomNode) (t : JSStr) :
    setTextAtDoc ⟨b, kids ++ [floatingCounterNode]⟩ [kids.length] t
      = ⟨b, kids ++ [DomNode.elem ⟨"div", some COUNTER_ID, [], none⟩ [DomNode.text t]]⟩ := by
  show (⟨b, setTextKids (kids ++ [floatingCounterNode]) kids.length [] t⟩ : Doc) = _
  rw [setTextKids_concat]
  rfl

theorem remove_appended (b : ElemData) (kids : List DomNode) (c : DomNode) :
    removeAtDoc ⟨b, kids ++ [c]⟩ [kids.length] = ⟨b, kids⟩ := by
  show (⟨b, removeKids (kids ++ [c]) kids.length []⟩ : Doc) = _
  rw [removeKids_concat]

theorem addEventListener_of_not_mem (ls : List Listener) (l : Listener) (h : l ∉ ls) :
    addEventListener ls l = ls ++ [l] := by
  unfold addEventListener
  rw [if_neg]
  simpa using h

theorem not_mem_append_singleton {α : Type} {a b : α} {l : List α}
    (h1 : a ∉ l) (h2 : a ≠ b) : a ∉ l ++ [b] := by
  simp [h1, h2]

theorem startObserveView_spec (w : World)
    (hid : getElementById w.doc COUNTER_ID = none)
    (hk : keyupL ∉ w.listeners) (hm : mouseupL ∉ w.listeners)
    (hsl : selchangeL ∉ w.listeners) :
    ∃ t roots,
      startObserveView w =
        { doc := ⟨w.doc.body, w.doc.kids ++
            [DomNode.elem ⟨"div", some COUNTER_ID, [], none⟩ [DomNode.text t]]⟩,
          listeners := w.listeners ++ [keyupL, mouseupL, selchangeL],
          observerConnected := true,
          cleanupFns := w.cleanupFns ++
            [FCleanup.removeCounter [w.doc.kids.length], FCleanup.removeDocListeners],
          contentRoots := roots,
          sel := w.sel,
          isBrowser := w.isBrowser } := by
  have hens := ensure_of_none { w with contentRoots := findContentRoots w.doc } hid
  refine ⟨renderText (fullTextUsed { w with contentRoots := findContentRoots w.doc })
            (selectedUsed { w with contentRoots := findContentRoots w.doc }),
          (updateCounter { w with contentRoots := findContentRoots w.doc }).world.contentRoots,
          ?_⟩
  have hL1 : addEventListener w.listeners keyupL = w.listeners ++ [keyupL] :=
    addEventListener_of_not_mem _ _ hk
  have hm1 : mouseupL ∉ w.listeners ++ [keyupL] :=
    not_mem_append_singleton hm (by decide)
  have hL2 : addEventListener (w.listeners ++ [keyupL]) mouseupL
      = w.listeners ++ [keyupL, mouseupL] := by
    rw [addEventListener_of_not_mem _ _ hm1, List.append_assoc]
    rfl
  have hs1 : selchangeL ∉ w.listeners ++ [keyupL, mouseupL] := by
    have h1 : selchangeL ∉ w.listeners ++ [keyupL] :=
      not_mem_append_singleton hsl (by decide)
    have : w.listeners ++ [keyupL, mouseupL] = (w.listeners ++ [keyupL]) ++ [mouseupL] := by
      rw [List.append_assoc]
      rfl
    rw [this]
    exact not_mem_append_singleton h1 (by decide)
  have hL3 : addEventListener (w.listeners ++ [keyupL, mouseupL]) selchangeL
      = w.listeners ++ [keyupL, mouseupL, selchangeL] := by
    rw [addEventListener_of_not_mem _ _ hs1, List.append_assoc]
    rfl
  unfold startObserveView
  simp only [updateCounter_world_listeners, updateCounter_world_observer,
    updateCounter_world_cleanupFns, updateCounter_world_sel, updateCounter_world_isBrowser,
    updateCounter_world_doc, docAfterEnsure, hens, hL1, hL2, hL3]
  simp [setText_on_appended, List.append_assoc]


theorem erase_three (ls : List Listener)
    (hk : keyupL ∉ ls) (hm : mouseupL ∉ ls) (hsl : selchangeL ∉ ls) :
    removeEventListener (removeEventListener (removeEventListener
      (ls ++ [keyupL, mouseupL, selchangeL]) keyupL) mouseupL) selchangeL = ls := by
  unfold removeEventListener
  rw [List.erase_append_right _ hk]
  have e1 : [keyupL, mouseupL, selchangeL].erase keyupL = [mouseupL, selchangeL] := by decide
  rw [e1, List.erase_append_right _ hm]
  have e2 : [mouseupL, selchangeL].erase mouseupL = [selchangeL] := by decide
  rw [e2, List.erase_append_right _ hsl]
  have e3 : [selchangeL].erase selchangeL = [] := by decide
  rw [e3, List.append_nil]

/-- C6: `activate()` followed immediately by `deactivate()` restores
the DOM and listener registry to their pre-activation state: the
injected counter node is removed (the document tree is equal, hence node
counts are equal), all three attached listeners are detached (listener
registrations are equal), the observer is idle and the cleanup registry
empty. -/
theorem activate_deactivate_roundtrip (w : World)
    (hb : w.isBrowser = true)
    (hcf : w.cleanupFns = [])
    (hid : getElementById w.doc COUNTER_ID = none)
    (hk : keyupL ∉ w.listeners) (hm : mouseupL ∉ w.listeners)
    (hsl : selchangeL ∉ w.listeners) :
    (deactivate (activate w)).doc = w.doc ∧
    (deactivate (activate w)).listeners = w.listeners ∧
    (deactivate (activate w)).observerConnected = false ∧
    (deactivate (activate w)).cleanupFns = [] := by
  have hact : activate w = startObserveView w := by
    unfold activate
    rw [hb]
    simp
  obtain ⟨t, roots, hA⟩ := startObserveView_spec w hid hk hm hsl
  rw [hact, hA, hcf]
  unfold deactivate
  simp only [List.nil_append, List.foldl_cons, List.foldl_nil, if_true]
  simp only [runCleanup]
  rw [remove_appended]
  rw [erase_three w.listeners hk hm hsl]
  simp

/-- C6 witness: the round trip at a concrete one-root browser world. -/
theorem roundtrip_witness :
    exC6.isBrowser = true ∧ exC6.cleanupFns = [] ∧
    getElementById exC6.doc COUNTER_ID = none ∧
    (deactivate (activate exC6)).doc = exC6.doc ∧
    (deactivate (activate exC6)).listeners = exC6.listeners ∧
    (deactivate (activate exC6)).observerConnected = false ∧
    (deactivate (activate exC6)).cleanupFns = [] := by
  have h := activate_deactivate_roundtrip exC6 rfl rfl (by decide)
    (by decide) (by decide) (by decide)
  exact ⟨rfl, rfl, by decide, h.1, h.2.1, h.2.2.1, h.2.2.2⟩


theorem nodeAt_kids_concat (dd : ElemData) (kids : List DomNode) (c : DomNode) :
    nodeAt (DomNode.elem dd (kids ++ [c])) [kids.length] = some c := by
  simp only [nodeAt]
  rw [get?_concat_len]

theorem textContentN_elem (dd : ElemData) (cs : List DomNode) :
    textContentN (DomNode.elem dd cs) = textContentL cs := rfl

theorem inline_root_text (b rootD : ElemData) (kids : List DomNode) (c : DomNode) :
    nodeTextAt ⟨b, [DomNode.elem rootD (kids ++ [c])]⟩ [0]
      = textContentL kids ++ textContentN c := by
  unfold nodeTextAt
  show textContentN (DomNode.elem rootD (kids ++ [c])) = _
  rw [textContentN_elem, textContentL_append]
  show textContentL kids ++ (textContentN c ++ []) = _
  rw [List.append_nil]

theorem inline_counter_text (b rootD cd : ElemData) (kids : List DomNode) (t : JSStr) :
    nodeTextAt ⟨b, [DomNode.elem rootD (kids ++ [DomNode.elem cd [DomNode.text t]])]⟩
      (0 :: [kids.length]) = t := by
  unfold nodeTextAt
  have h : nodeAt
      (Doc.toNode ⟨b, [DomNode.elem rootD (kids ++ [DomNode.elem cd [DomNode.text t]])]⟩)
      (0 :: [kids.length])
      = some (DomNode.elem cd [DomNode.text t]) := by
    show nodeAt (DomNode.elem rootD (kids ++ [DomNode.elem cd [DomNode.text t]]))
        [kids.length] = _
    exact nodeAt_kids_concat rootD kids _
  rw [h]
  show t ++ [] = t
  rw [List.append_nil]

theorem inline_setText_on_appended (b rootD cd : ElemData) (kids inner : List DomNode)
    (t : JSStr) :
    setTextAtDoc ⟨b, [DomNode.elem rootD (kids ++ [DomNode.elem cd inner])]⟩
      (0 :: [kids.length]) t
      = ⟨b, [DomNode.elem rootD (kids ++ [DomNode.elem cd [DomNode.text t]])]⟩ := by
  show (⟨b, [DomNode.elem rootD
      (setTextKids (kids ++ [DomNode.elem cd inner]) kids.length [] t)]⟩ : Doc) = _
  rw [setTextKids_concat]
  rfl

theorem inline_update_no_selection (b rootD cd : ElemData) (kids inner : List DomNode) :
    inlineUpdate ⟨b, [DomNode.elem rootD (kids ++ [DomNode.elem cd inner])]⟩ none [0]
      (0 :: [kids.length])
      = ⟨b, [DomNode.elem rootD (kids ++ [DomNode.elem cd
          [DomNode.text (totalForm (countChars
            (textContentL kids ++ textContentL inner)))]])]⟩ := by
  unfold inlineUpdate
  rw [inline_root_text, textContentN_elem]
  have hc : ¬ 0 < countChars ([] : JSStr) := by decide
  rw [if_neg hc, inline_setText_on_appended]

/-- C10: in the inline variant the counter surface is appended as a
child of the content root and each re-render reads that root's full
text content, so every render after the first reports a document total
equal to the page body's code units plus the code units of the
counter's own previously displayed (non-empty) text. -/
theorem inline_total_counts_own_counter (b rootD : ElemData) (kids : List DomNode)
    (ls : List Listener) (ob : Bool) (cf : List ICleanup)
    (hfresh : kidsHaveMatch kids [Selector.cls COUNTER_CLASS] = false) :
    (attachCharCounterToView ⟨⟨b, [DomNode.elem rootD kids]⟩, ls, ob, cf, none⟩ [0]).2 = 1 ∧
    nodeTextAt
        (attachCharCounterToView ⟨⟨b, [DomNode.elem rootD kids]⟩, ls, ob, cf, none⟩ [0]).1.doc
        (0 :: [kids.length])
      = totalForm (countChars (textContentL kids)) ∧
    nodeTextAt
        (inlineUpdate
          (attachCharCounterToView ⟨⟨b, [DomNode.elem rootD kids]⟩, ls, ob, cf, none⟩ [0]).1.doc
          none [0] (0 :: [kids.length]))
        (0 :: [kids.length])
      = totalForm (countChars (textContentL kids)
          + countChars (totalForm (countChars (textContentL kids)))) ∧
    0 < countChars (totalForm (countChars (textContentL kids))) := by
  have hatt : attachCharCounterToView ⟨⟨b, [DomNode.elem rootD kids]⟩, ls, ob, cf, none⟩ [0]
      = (⟨inlineUpdate ⟨b, [DomNode.elem rootD
            (kids ++ [DomNode.elem ⟨"div", none, [COUNTER_CLASS], none⟩ []])]⟩ none [0]
            (0 :: [kids.length]),
          addEventListener (addEventListener (addEventListener ls
            (Target.node [0], EventType.keyup, Handler.inlineHandler [0] (0 :: [kids.length])))
            (Target.node [0], EventType.mouseup, Handler.inlineHandler [0] (0 :: [kids.length])))
            (Target.document, EventType.selectionchange,
              Handler.inlineHandler [0] (0 :: [kids.length])),
          ob, cf ++ [ICleanup.inlineCleanup [0] (0 :: [kids.length])], none⟩, 1) := by
    unfold attachCharCounterToView
    have hn : nodeAt (Doc.toNode ⟨b, [DomNode.elem rootD kids]⟩) [0]
        = some (DomNode.elem rootD kids) := rfl
    rw [hn]
    simp only [hfresh, Bool.false_eq_true, if_false]
    rfl
  have hup1 := inline_update_no_selection b rootD ⟨"div", none, [COUNTER_CLASS], none⟩ kids []
  have ht1 : textContentL kids ++ textContentL ([] : List DomNode) = textContentL kids := by
    show textContentL kids ++ [] = _
    rw [List.append_nil]
  rw [ht1] at hup1
  have hup2 := inline_update_no_selection b rootD ⟨"div", none, [COUNTER_CLASS], none⟩ kids
    [DomNode.text (totalForm (countChars (textContentL kids)))]
  have ht2 : textContentL kids
      ++ textContentL [DomNode.text (totalForm (countChars (textContentL kids)))]
      = textContentL kids ++ totalForm (countChars (textContentL kids)) := by
    show textContentL kids ++ (totalForm (countChars (textContentL kids)) ++ []) = _
    rw [List.append_nil]
  rw [ht2, countChars_append] at hup2
  rw [hatt]
  refine ⟨rfl, ?_, ?_, totalForm_pos _⟩
  · show nodeTextAt (inlineUpdate ⟨b, [DomNode.elem rootD
        (kids ++ [DomNode.elem ⟨"div", none, [COUNTER_CLASS], none⟩ []])]⟩ none [0]
        (0 :: [kids.length])) (0 :: [kids.length]) = _
    rw [hup1]
    exact inline_counter_text b rootD _ kids _
  · show nodeTextAt (inlineUpdate (inlineUpdate ⟨b, [DomNode.elem rootD
        (kids ++ [DomNode.elem ⟨"div", none, [COUNTER_CLASS], none⟩ []])]⟩ none [0]
        (0 :: [kids.length])) none [0] (0 :: [kids.length])) (0 :: [kids.length]) = _
    rw [hup1, hup2]
    exact inline_counter_text b rootD _ kids _


/-- C10 witness: for a root with body text "hello" (5 code units), the
second render reports `5 + len("ページ全体: 5 文字")` code units. -/
theorem inline_counts_witness :
    kidsHaveMatch [DomNode.text (strToJS "hello")] [Selector.cls COUNTER_CLASS] = false ∧
    ((attachCharCounterToView exC10 [0]).2 = 1 ∧
     nodeTextAt (attachCharCounterToView exC10 [0]).1.doc [0, 1] = totalForm 5 ∧
     nodeTextAt (inlineUpdate (attachCharCounterToView exC10 [0]).1.doc none [0] [0, 1]) [0, 1]
       = totalForm (5 + countChars (totalForm 5)) ∧
     0 < countChars (totalForm 5)) :=
  ⟨by decide,
   inline_total_counts_own_counter bodyD wikiD [DomNode.text (strToJS "hello")] [] true []
     (by decide)⟩

end VCC
